import Mathlib

/-!
Verification development for `src/dev/monitor_windows_internals.py`, a Textual
terminal dashboard that samples CPU, memory, disk and per-process resident
memory every two seconds and renders a stats block and a top-5 process table.

The Python source is embedded shallowly: strings are lists of characters,
Python `//` on nonnegative integers is `Nat` division, the f-string format
specs `>w` and `<w` are explicit space padding, and the per-process loop of
`update_stats` (which may let an exception escape) is a function into
`Except`.  Line numbers in the comments refer to the Python source file.
-/

namespace Monitor

/-- Result of the psutil `memory_info` attribute for one process: the resident
set size in bytes is the only field the program reads. -/
structure MemInfo where
  rss : Nat
deriving Repr, DecidableEq

/-- One entry yielded by `psutil.process_iter(["pid", "name", "memory_info"])`
(line 71).  The `memory_info` attribute is `none` when it was unavailable for
that process; the source itself guards for this at the sort key (line 72). -/
structure ProcEntry where
  pid : Nat
  name : List Char
  memory_info : Option MemInfo
deriving Repr, DecidableEq

/-- The sort key of line 72:
`p.info["memory_info"].rss if p.info["memory_info"] else 0`. -/
def rssKey (p : ProcEntry) : Nat :=
  match p.memory_info with
  | some m => m.rss
  | none => 0

/-- The order used by `sorted(..., key=..., reverse=True)` (lines 70-74):
`a` may stand before `b` exactly when `rssKey b ≤ rssKey a`; on equal keys the
sort is stable, keeping enumeration order. -/
def procGE (a b : ProcEntry) : Bool := rssKey b ≤ rssKey a

/-- `processes` of lines 70-74: the enumeration, stably sorted descending by
the key of line 72.  `List.mergeSort` is a stable sort, as Python `sorted`. -/
def sortedProcesses (ps : List ProcEntry) : List ProcEntry :=
  ps.mergeSort procGE

/-- `processes[:5]` of line 81: at most the first five sorted entries. -/
def topProcesses (ps : List ProcEntry) : List ProcEntry :=
  (sortedProcesses ps).take 5

/-- The characters of a string literal. -/
def S (s : String) : List Char := s.data

/-- Python `str` of a nonnegative integer: its decimal digits. -/
def natStr (n : Nat) : List Char := (Nat.repr n).data

/-- Python format spec `:>w`: right-align, padding with spaces on the left;
a string at least `w` long is unchanged. -/
def rjust (w : Nat) (s : List Char) : List Char :=
  List.replicate (w - s.length) ' ' ++ s

/-- Python format spec `:<w`: left-align, padding with spaces on the right;
a string at least `w` long is unchanged. -/
def ljust (w : Nat) (s : List Char) : List Char :=
  s ++ List.replicate (w - s.length) ' '

/-- Line 85: `(name[:21] + '...') if len(name) > 24 else name`. -/
def truncName (s : List Char) : List Char :=
  if s.length > 24 then s.take 21 ++ S "..." else s

/-- The fields of `psutil.virtual_memory()` the program reads (lines 58-62).
The `percent` field is only ever interpolated into text, so it is kept as the
text form it prints as. -/
structure VirtualMemory where
  percent : List Char
  used : Nat
  total : Nat
deriving Repr, DecidableEq

/-- The fields of `psutil.disk_usage("/")` the program reads (lines 64-68). -/
structure DiskUsage where
  percent : List Char
  used : Nat
  total : Nat
deriving Repr, DecidableEq

/-- Line 56: the CPU line, `cpu_percent` interpolated as text. -/
def cpuLine (cpu : List Char) : List Char :=
  S "[bold yellow]CPU Usage:[/] [yellow]" ++ cpu ++ S "%[/]"

/-- Lines 59-62: the memory line; both byte counts shown in whole megabytes
by Python floor division `// (1024**2)`. -/
def memoryLine (mem : VirtualMemory) : List Char :=
  S "[bold magenta]Memory:[/] [magenta]" ++ mem.percent ++ S "%[/] used ([green]" ++
    natStr (mem.used / 1024 ^ 2) ++ S "MB[/]/[blue]" ++
    natStr (mem.total / 1024 ^ 2) ++ S "MB[/])"

/-- Lines 65-68: the disk line; both byte counts shown in whole gigabytes by
Python floor division `// (1024**3)`. -/
def diskLine (disk : DiskUsage) : List Char :=
  S "[bold green]Disk:[/] [green]" ++ disk.percent ++ S "%[/] used ([green]" ++
    natStr (disk.used / 1024 ^ 3) ++ S "GB[/]/[blue]" ++
    natStr (disk.total / 1024 ^ 3) ++ S "GB[/])"

/-- Line 77: the table header line. -/
def tableHeaderLine : List Char :=
  S "[bold underline]Top 5 Processes by Memory Usage:[/]"

/-- Line 78: the column-title row, `PID` right-aligned in width 6, `Name`
left-aligned in width 24, `Memory (MB)` right-aligned in width 12. -/
def columnTitlesLine : List Char :=
  S "[bold cyan]" ++ rjust 6 (S "PID") ++ S "[/]  [bold white]" ++
    ljust 24 (S "Name") ++ S "[/]  [bold magenta]" ++
    rjust 12 (S "Memory (MB)") ++ S "[/]"

/-- Line 79: the divider row, dash runs of lengths 6, 24 and 12. -/
def dividerLine : List Char :=
  List.replicate 6 '-' ++ S "  " ++ List.replicate 24 '-' ++ S "  " ++
    List.replicate 12 '-'

/-- Lines 86-88: one data row, pid right-aligned in width 6, the possibly
truncated name left-aligned in width 24, the whole-megabyte resident memory
right-aligned in width 12. -/
def processRow (p : ProcEntry) (m : MemInfo) : List Char :=
  S "[cyan]" ++ rjust 6 (natStr p.pid) ++ S "[/]  [white]" ++
    ljust 24 (truncName p.name) ++ S "[/]  [magenta]" ++
    rjust 12 (natStr (m.rss / 1024 ^ 2)) ++ S "[/]"

/-- An exception that escapes the loop body of lines 82-90: dereferencing
`.rss` on an absent (`None`) `memory_info` raises `AttributeError`, which the
`except (psutil.NoSuchProcess, psutil.AccessDenied)` clause does not catch. -/
inductive PyExc
  | attributeError
deriving Repr, DecidableEq

/-- How the detail reads of lines 83-85 behave for one process: they either
succeed, or raise one of the two psutil exceptions the except clause of
line 89 catches. -/
inductive ReadOutcome
  | success
  | noSuchProcess
  | accessDenied
deriving Repr, DecidableEq

/-- The for loop of lines 81-90, over the already truncated process list.
`rd` is the environment: which caught psutil exception, if any, the detail
reads of a given process raise.  On `noSuchProcess` or `accessDenied` the
except clause fires and the process is skipped; when the reads succeed but
`memory_info` is absent, `.rss` on `None` raises `AttributeError`, which no
clause catches, aborting the loop. -/
def buildRows (rd : ProcEntry → ReadOutcome) :
    List ProcEntry → Except PyExc (List (List Char))
  | [] => .ok []
  | p :: ps =>
    match rd p with
    | .noSuchProcess => buildRows rd ps
    | .accessDenied => buildRows rd ps
    | .success =>
      match p.memory_info with
      | none => .error .attributeError
      | some m => (buildRows rd ps).map (fun rows => processRow p m :: rows)

/-- The values sampled at one tick: the `MetricsSnapshot` of the spec. -/
structure Snapshot where
  cpu_percent : List Char
  mem : VirtualMemory
  disk : DiskUsage
  processes : List ProcEntry

/-- The two reactive fields of `SystemStatsWidget` (lines 18-19). -/
structure Widget where
  stats : List Char
  table : List Char
deriving Repr, DecidableEq

/-- A newline character, as joined in by line 94 and line 92. -/
def newline : List Char := S "\n"

/-- Lines 76-90: the full list of table lines, three fixed lines followed by
the data rows the loop produced. -/
def tableLines (rd : ProcEntry → ReadOutcome) (ps : List ProcEntry) :
    Except PyExc (List (List Char)) :=
  (buildRows rd (topProcesses ps)).map
    (fun rows => tableHeaderLine :: columnTitlesLine :: dividerLine :: rows)

/-- Line 94: the table text, the lines joined by newlines. -/
def tableText (rd : ProcEntry → ReadOutcome) (ps : List ProcEntry) :
    Except PyExc (List Char) :=
  (tableLines rd ps).map (List.intercalate newline)

/-- Line 92: `stats = f"{cpu}\n{memory}\n{disk_str}"`. -/
def statsText (snap : Snapshot) : List Char :=
  cpuLine snap.cpu_percent ++ newline ++ memoryLine snap.mem ++ newline ++
    diskLine snap.disk

/-- `update_stats` (lines 51-94) as a transformation of the widget state: on
success both reactive fields are overwritten with text computed from the
snapshot alone (lines 93-94); an uncaught exception propagates to the caller
and neither field is assigned. -/
def updateStats (rd : ProcEntry → ReadOutcome) (snap : Snapshot)
    (w : Widget) : Except PyExc Widget :=
  (tableText rd snap.processes).map
    (fun t => { stats := statsText snap, table := t })

/-- Line 33: `BINDINGS = [("q", "quit", "Quit")]` — key, action, description. -/
def BINDINGS : List (String × String × String) := [("q", "quit", "Quit")]

/-- Modelled from the spec: the process exit status of the script.  `main`
(lines 98-102) only calls `MonitorApp().run()` and returns; the spec states a
normal quit exits with success status.  A normal return of `main` ends the
interpreter with status 0, an uncaught exception with a nonzero status. -/
def scriptExitCode (runOutcome : Except PyExc Unit) : Nat :=
  match runOutcome with
  | .ok _ => 0
  | .error _ => 1

/-- The two actions `on_mount` performs (lines 44-49), in program order. -/
inductive MountEvent
  | setInterval (period : Nat)
  | invokeUpdate
deriving Repr, BEq, DecidableEq

/-- `on_mount`, lines 44-49: register the periodic 2-second timer, then run
one immediate update. -/
def onMountEvents : List MountEvent :=
  [MountEvent.setInterval 2, MountEvent.invokeUpdate]

/-- Modelled from the spec: the recurring timer registered by
`set_interval(p, ...)` fires every `p` seconds, its `k`-th firing at time
`p * (k + 1)` after mount. -/
def timerFireTime (period k : Nat) : Nat := period * (k + 1)

/-- The immediate update of line 49 runs at mount time, time 0. -/
def immediateUpdateTime : Nat := 0

/-! Helper lemmas shared by several claims. -/

theorem procGE_trans (a b c : ProcEntry) (hab : procGE a b) (hbc : procGE b c) :
    procGE a c := by
  simp only [procGE, decide_eq_true_eq] at hab hbc ⊢
  omega

theorem procGE_total (a b : ProcEntry) : procGE a b || procGE b a := by
  simp only [procGE, Bool.or_eq_true, decide_eq_true_eq]
  omega

theorem sortedProcesses_pairwise (ps : List ProcEntry) :
    (sortedProcesses ps).Pairwise (fun a b => rssKey b ≤ rssKey a) := by
  have h := List.sorted_mergeSort procGE_trans procGE_total ps
  exact h.imp (fun hab => by simpa [procGE] using hab)

/-- On a successful run, the loop of lines 81-90 returns at most one row per
input process, and every row is the formatted row of some input process whose
memory info was present. -/
theorem buildRows_ok (rd : ProcEntry → ReadOutcome) :
    ∀ (l : List ProcEntry) (rows : List (List Char)),
      buildRows rd l = Except.ok rows →
      rows.length ≤ l.length ∧
      ∀ r ∈ rows, ∃ p m, p ∈ l ∧ p.memory_info = some m ∧ r = processRow p m := by
  intro l
  induction l with
  | nil =>
    intro rows h
    simp only [buildRows, Except.ok.injEq] at h
    subst h
    simp
  | cons p ps ih =>
    intro rows h
    simp only [buildRows] at h
    cases hrd : rd p with
    | noSuchProcess =>
      rw [hrd] at h
      obtain ⟨h1, h2⟩ := ih rows h
      exact ⟨Nat.le_succ_of_le h1, fun r hr => by
        obtain ⟨q, m, hq, hm, hr2⟩ := h2 r hr
        exact ⟨q, m, List.mem_cons_of_mem p hq, hm, hr2⟩⟩
    | accessDenied =>
      rw [hrd] at h
      obtain ⟨h1, h2⟩ := ih rows h
      exact ⟨Nat.le_succ_of_le h1, fun r hr => by
        obtain ⟨q, m, hq, hm, hr2⟩ := h2 r hr
        exact ⟨q, m, List.mem_cons_of_mem p hq, hm, hr2⟩⟩
    | success =>
      rw [hrd] at h
      cases hmi : p.memory_info with
      | none => rw [hmi] at h; simp at h
      | some m =>
        rw [hmi] at h
        cases hb : buildRows rd ps with
        | error e => rw [hb] at h; simp [Except.map] at h
        | ok rows0 =>
          rw [hb] at h
          simp only [Except.map, Except.ok.injEq] at h
          subst h
          obtain ⟨h1, h2⟩ := ih rows0 hb
          refine ⟨by simpa using Nat.succ_le_succ h1, fun r hr => ?_⟩
          rcases List.mem_cons.mp hr with hr1 | hr1
          · exact ⟨p, m, List.mem_cons_self p ps, hmi, hr1⟩
          · obtain ⟨q, m2, hq, hm, hr2⟩ := h2 r hr1
            exact ⟨q, m2, List.mem_cons_of_mem p hq, hm, hr2⟩

/-! The claims. -/

/-- Claim C1: for every snapshot produced by a sampling tick, the
`top_processes` sequence (`processes[:5]` after the sort of lines 70-74) has
length at most 5 and is sorted in descending order of the resident-memory key;
processes with equal keys keep their original enumeration order: any
enumeration-ordered pair with equal keys is still an ordered pair of the
sorted sequence (stable sort). -/
theorem c1_top_processes_sorted_bounded (ps : List ProcEntry) :
    (topProcesses ps).length ≤ 5 ∧
    (topProcesses ps).Pairwise (fun a b => rssKey b ≤ rssKey a) ∧
    (∀ a b : ProcEntry, List.Sublist [a, b] ps → rssKey a = rssKey b →
      List.Sublist [a, b] (sortedProcesses ps)) := by
  refine ⟨List.length_take_le 5 _, ?_, ?_⟩
  · exact (sortedProcesses_pairwise ps).sublist (List.take_sublist 5 _)
  · intro a b hsub heq
    exact List.pair_sublist_mergeSort procGE_trans procGE_total
      (by simp [procGE, heq]) hsub

/-- Two processes tied at 300 MiB resident memory, in enumeration order. -/
def tieA : ProcEntry := ⟨1, S "alpha", some ⟨314572800⟩⟩

def tieB : ProcEntry := ⟨2, S "beta", some ⟨314572800⟩⟩

def tiePs : List ProcEntry := [tieA, tieB]

/-- Witness for C1 at a concrete two-process tie: the enumeration-ordered
tied pair is still ordered this way after sorting. -/
theorem c1_witness :
    (topProcesses tiePs).length ≤ 5 ∧
    List.Sublist [tieA, tieB] (sortedProcesses tiePs) :=
  ⟨(c1_top_processes_sorted_bounded tiePs).1,
   (c1_top_processes_sorted_bounded tiePs).2.2 tieA tieB
     (List.Sublist.refl _) rfl⟩

/-- Claim C10: the ranking key of line 72 is total — a process whose memory
info is absent gets key 0; the sort consumes every enumerated process and
never fails (its output is a permutation of its input); the output is ordered
descending by the key, so in it nothing with a positive key ever follows a
key-0 process. -/
theorem c10_sort_key_total (ps : List ProcEntry) :
    (∀ p : ProcEntry, p.memory_info = none → rssKey p = 0) ∧
    (sortedProcesses ps).Perm ps ∧
    (sortedProcesses ps).Pairwise (fun a b => rssKey b ≤ rssKey a) ∧
    (∀ a b : ProcEntry, List.Sublist [a, b] (sortedProcesses ps) →
      rssKey a = 0 → rssKey b = 0) := by
  refine ⟨fun p hp => by simp [rssKey, hp], List.mergeSort_perm ps procGE,
    sortedProcesses_pairwise ps, ?_⟩
  intro a b hsub ha
  have h := (sortedProcesses_pairwise ps).sublist hsub
  have hab := List.pairwise_pair.mp h
  omega

/-- One positive-memory process and two processes with absent memory info,
enumerated in this order. -/
def svcProc : ProcEntry := ⟨3, S "svc", some ⟨1048576⟩⟩

def idleProc : ProcEntry := ⟨4, S "idle", none⟩

def ghostProc : ProcEntry := ⟨5, S "ghost", none⟩

def mixedPs : List ProcEntry := [svcProc, idleProc, ghostProc]

/-- Witness for C10 at a concrete list: the absent-memory processes carry
key 0, and whatever follows a key-0 process in the sorted output also has
key 0. -/
theorem c10_witness : rssKey idleProc = 0 ∧ rssKey ghostProc = 0 :=
  have hs : sortedProcesses mixedPs = mixedPs :=
    List.mergeSort_of_sorted (by decide)
  ⟨(c10_sort_key_total mixedPs).1 idleProc rfl,
   (c10_sort_key_total mixedPs).2.2.2 idleProc ghostProc
     (by rw [hs]; exact List.Sublist.cons svcProc (List.Sublist.refl _)) rfl⟩

/-- Claim C3: name truncation of line 85 — a name longer than 24 characters
is displayed as exactly its first 21 characters followed by `...`, any other
name is displayed unchanged, and every displayed name has at most 24
characters. -/
theorem c3_name_truncation (s : List Char) :
    (24 < s.length → truncName s = s.take 21 ++ S "...") ∧
    (s.length ≤ 24 → truncName s = s) ∧
    (truncName s).length ≤ 24 := by
  refine ⟨fun h => ?_, fun h => ?_, ?_⟩
  · simp [truncName, h]
  · simp [truncName, Nat.not_lt.mpr h]
  · by_cases h : 24 < s.length
    · have he : truncName s = s.take 21 ++ S "..." := by simp [truncName, h]
      have h3 : (S "...").length = 3 := rfl
      rw [he, List.length_append, List.length_take, h3]
      omega
    · have he : truncName s = s := by simp [truncName, h]
      rw [he]
      omega

/-- A 30-character process name. -/
def longName : List Char := S "abcdefghijklmnopqrstuvwxyz0123"

/-- Witness for C3 at a concrete 30-character name: it is displayed as its
first 21 characters plus the ellipsis, within the 24-character bound. -/
theorem c3_witness :
    truncName longName = longName.take 21 ++ S "..." ∧
    (truncName longName).length ≤ 24 :=
  ⟨(c3_name_truncation longName).1 (by decide),
   (c3_name_truncation longName).2.2⟩

/-- Claim C5: every megabyte value on the memory line and in the process
table is the byte count integer-divided by 2^20, every gigabyte value on the
disk line is the byte count integer-divided by 2^30 (the source divides by
`1024**2` and `1024**3`), and this division truncates toward zero: the shown
value v satisfies 2^20*v ≤ bytes < 2^20*(v+1), likewise for 2^30. -/
theorem c5_integer_unit_conversion :
    (∀ mem : VirtualMemory, memoryLine mem =
      S "[bold magenta]Memory:[/] [magenta]" ++ mem.percent ++
        S "%[/] used ([green]" ++ natStr (mem.used / 2 ^ 20) ++
        S "MB[/]/[blue]" ++ natStr (mem.total / 2 ^ 20) ++ S "MB[/])") ∧
    (∀ disk : DiskUsage, diskLine disk =
      S "[bold green]Disk:[/] [green]" ++ disk.percent ++
        S "%[/] used ([green]" ++ natStr (disk.used / 2 ^ 30) ++
        S "GB[/]/[blue]" ++ natStr (disk.total / 2 ^ 30) ++ S "GB[/])") ∧
    (∀ (p : ProcEntry) (m : MemInfo), processRow p m =
      S "[cyan]" ++ rjust 6 (natStr p.pid) ++ S "[/]  [white]" ++
        ljust 24 (truncName p.name) ++ S "[/]  [magenta]" ++
        rjust 12 (natStr (m.rss / 2 ^ 20)) ++ S "[/]") ∧
    (∀ b : Nat, 2 ^ 20 * (b / 2 ^ 20) ≤ b ∧ b < 2 ^ 20 * (b / 2 ^ 20 + 1)) ∧
    (∀ b : Nat, 2 ^ 30 * (b / 2 ^ 30) ≤ b ∧ b < 2 ^ 30 * (b / 2 ^ 30 + 1)) := by
  refine ⟨fun mem => ?_, fun disk => ?_, fun p m => ?_, fun b => ?_, fun b => ?_⟩
  · simp only [memoryLine]
    norm_num
  · simp only [diskLine]
    norm_num
  · simp only [processRow]
    norm_num
  · have h1 := Nat.div_add_mod b (2 ^ 20)
    have h2 : b % 2 ^ 20 < 2 ^ 20 := Nat.mod_lt b (by norm_num)
    norm_num at h1 h2 ⊢
    omega
  · have h1 := Nat.div_add_mod b (2 ^ 30)
    have h2 : b % 2 ^ 30 < 2 ^ 30 := Nat.mod_lt b (by norm_num)
    norm_num at h1 h2 ⊢
    omega

/-- Claim C6: on every successful tick the rendered table is the header line,
the column-title row (PID right-aligned in width 6, Name left-aligned in
width 24, the memory column right-aligned in width 12), a divider of dash
runs of exactly those widths, and then at most 5 data rows formatted with the
same column widths. -/
theorem c6_table_layout (rd : ProcEntry → ReadOutcome) (ps : List ProcEntry)
    (tl : List (List Char)) (h : tableLines rd ps = Except.ok tl) :
    ∃ dataRows : List (List Char),
      tl = tableHeaderLine :: columnTitlesLine :: dividerLine :: dataRows ∧
      dataRows.length ≤ 5 ∧
      (∀ r ∈ dataRows, ∃ p m, p.memory_info = some m ∧ r = processRow p m) ∧
      tableHeaderLine = S "[bold underline]Top 5 Processes by Memory Usage:[/]" ∧
      columnTitlesLine =
        S "[bold cyan]" ++ rjust 6 (S "PID") ++ S "[/]  [bold white]" ++
          ljust 24 (S "Name") ++ S "[/]  [bold magenta]" ++
          rjust 12 (S "Memory (MB)") ++ S "[/]" ∧
      dividerLine = List.replicate 6 '-' ++ S "  " ++ List.replicate 24 '-' ++
        S "  " ++ List.replicate 12 '-' := by
  cases hb : buildRows rd (topProcesses ps) with
  | error e =>
    rw [tableLines, hb] at h
    simp [Except.map] at h
  | ok rows =>
    rw [tableLines, hb] at h
    simp only [Except.map, Except.ok.injEq] at h
    subst h
    obtain ⟨h1, h2⟩ := buildRows_ok rd _ rows hb
    refine ⟨rows, rfl, le_trans h1 (List.length_take_le 5 _),
      fun r hr => ?_, rfl, rfl, rfl⟩
    obtain ⟨p, m, _, hm, hr2⟩ := h2 r hr
    exact ⟨p, m, hm, hr2⟩

/-- The detail-read environment in which every read succeeds. -/
def rdAllOk : ProcEntry → ReadOutcome := fun _ => ReadOutcome.success

/-- A single enumerated process occupying 300 MiB. -/
def pyProc : ProcEntry := ⟨42, S "python", some ⟨314572800⟩⟩

/-- Witness for C6 at a concrete one-process tick: the table is the three
fixed lines followed by the one data row. -/
theorem c6_witness :
    ∃ dataRows : List (List Char),
      [tableHeaderLine, columnTitlesLine, dividerLine,
          processRow pyProc ⟨314572800⟩] =
        tableHeaderLine :: columnTitlesLine :: dividerLine :: dataRows ∧
      dataRows.length ≤ 5 ∧
      (∀ r ∈ dataRows, ∃ p m, p.memory_info = some m ∧ r = processRow p m) ∧
      tableHeaderLine = S "[bold underline]Top 5 Processes by Memory Usage:[/]" ∧
      columnTitlesLine =
        S "[bold cyan]" ++ rjust 6 (S "PID") ++ S "[/]  [bold white]" ++
          ljust 24 (S "Name") ++ S "[/]  [bold magenta]" ++
          rjust 12 (S "Memory (MB)") ++ S "[/]" ∧
      dividerLine = List.replicate 6 '-' ++ S "  " ++ List.replicate 24 '-' ++
        S "  " ++ List.replicate 12 '-' :=
  c6_table_layout rdAllOk [pyProc] _ (by
    have hs : sortedProcesses [pyProc] = [pyProc] :=
      List.mergeSort_singleton pyProc
    simp only [tableLines, topProcesses, hs]
    rfl)

/-- Claim C7: the formatted output of a tick is a function of the sampled
snapshot alone — updating from the same snapshot twice, or starting from any
previous widget state, produces byte-identical stats text and table text. -/
theorem c7_formatting_deterministic (rd : ProcEntry → ReadOutcome)
    (snap : Snapshot) :
    (∀ w1 w2 : Widget, updateStats rd snap w1 = updateStats rd snap w2) ∧
    (∀ w w2 : Widget, updateStats rd snap w = Except.ok w2 →
      updateStats rd snap w2 = Except.ok w2 ∧ w2.stats = statsText snap) := by
  constructor
  · intro w1 w2
    rfl
  · intro w w2 h
    refine ⟨h, ?_⟩
    rw [updateStats] at h
    cases hb : tableText rd snap.processes with
    | error e => rw [hb] at h; simp [Except.map] at h
    | ok t =>
      rw [hb] at h
      simp only [Except.map, Except.ok.injEq] at h
      rw [← h]

/-- A concrete snapshot with no enumerated processes. -/
def quietSnap : Snapshot :=
  ⟨S "12.3", ⟨S "25.0", 4294967296, 17179869184⟩,
   ⟨S "20.0", 107374182400, 536870912000⟩, []⟩

/-- The widget state after one update from `quietSnap`. -/
def quietWidget : Widget :=
  ⟨statsText quietSnap,
   List.intercalate newline [tableHeaderLine, columnTitlesLine, dividerLine]⟩

/-- Witness for C7 at a concrete snapshot: updating again from the same
snapshot reproduces the widget byte for byte. -/
theorem c7_witness :
    updateStats rdAllOk quietSnap quietWidget = Except.ok quietWidget ∧
    quietWidget.stats = statsText quietSnap :=
  (c7_formatting_deterministic rdAllOk quietSnap).2 ⟨[], []⟩ quietWidget (by
    simp [updateStats, tableText, tableLines, topProcesses, sortedProcesses,
      quietSnap, buildRows, Except.map, quietWidget])

/-- Five enumerated processes, already in descending resident-memory order. -/
def busyProcs : List ProcEntry :=
  [⟨101, S "chrome", some ⟨524288000⟩⟩,
   ⟨102, S "firefox", some ⟨314572800⟩⟩,
   ⟨103, S "code", some ⟨314572800⟩⟩,
   ⟨104, S "explorer", some ⟨104857600⟩⟩,
   ⟨105, S "winlogon", some ⟨52428800⟩⟩]

/-- The detail-read environment in which process 103 vanishes between
enumeration and detail read and every other read succeeds. -/
def rdVanish : ProcEntry → ReadOutcome :=
  fun p => if p.pid = 103 then ReadOutcome.noSuchProcess else ReadOutcome.success

/-- A tick whose enumeration holds one process with absent memory info. -/
def ghostSnap : Snapshot :=
  ⟨S "12.3", ⟨S "25.0", 4294967296, 17179869184⟩,
   ⟨S "20.0", 107374182400, 536870912000⟩, [ghostProc]⟩

/-- The widget before any update. -/
def emptyWidget : Widget := ⟨[], []⟩

/-- Claim C2, settled against the code: when one of the top-5 processes
vanishes (a caught psutil exception), the tick indeed yields a table with one
fewer data row and no error — but the claimed "never raises" fails: a process
whose memory info was unavailable at enumeration (`memory_info` is `None`,
the case line 72 guards for) reaches line 83, where `.rss` on `None` raises
an uncaught `AttributeError` that propagates out of `update_stats`. -/
theorem c2_skip_versus_crash :
    (∃ rows, buildRows rdVanish (topProcesses busyProcs) = Except.ok rows ∧
      rows.length = 4) ∧
    updateStats rdAllOk ghostSnap emptyWidget =
      Except.error PyExc.attributeError := by
  constructor
  · have hs : sortedProcesses busyProcs = busyProcs :=
      List.mergeSort_of_sorted (by decide)
    have ht : topProcesses busyProcs = busyProcs := by
      rw [topProcesses, hs]
      rfl
    rw [ht]
    exact ⟨_, rfl, rfl⟩
  · have hs : sortedProcesses [ghostProc] = [ghostProc] :=
      List.mergeSort_singleton ghostProc
    simp only [updateStats, tableText, tableLines, ghostSnap, topProcesses, hs]
    rfl

/-- Claim C8: the application binds exactly one interactive key, `q`, mapped
to the quit action, and no other key is bound; `main` (lines 98-102) adds no
exception handling or explicit exit code, so a run that returns normally (a
normal quit) ends the process with status 0. -/
theorem c8_single_quit_binding :
    BINDINGS = [("q", "quit", "Quit")] ∧
    BINDINGS.length = 1 ∧
    (∀ b ∈ BINDINGS, b.1 = "q" ∧ b.2.1 = "quit") ∧
    scriptExitCode (Except.ok ()) = 0 := by
  refine ⟨rfl, rfl, ?_, rfl⟩
  intro b hb
  simp only [BINDINGS, List.mem_singleton] at hb
  subst hb
  exact ⟨rfl, rfl⟩

/-- Witness for C8 at the one concrete binding. -/
theorem c8_witness :
    (("q", "quit", "Quit") : String × String × String).1 = "q" ∧
    (("q", "quit", "Quit") : String × String × String).2.1 = "quit" :=
  c8_single_quit_binding.2.2.1 ("q", "quit", "Quit")
    (by simp [BINDINGS])

/-- Claim C9: `on_mount` registers exactly one periodic timer, of fixed
2-second period, and performs exactly one immediate sample-and-render; the
immediate update happens at mount time, strictly before every periodic
firing, and consecutive firings are 2 seconds apart. -/
theorem c9_immediate_update_then_2s_cadence :
    onMountEvents = [MountEvent.setInterval 2, MountEvent.invokeUpdate] ∧
    onMountEvents.count MountEvent.invokeUpdate = 1 ∧
    (∀ p : Nat, MountEvent.setInterval p ∈ onMountEvents → p = 2) ∧
    (∀ k : Nat, timerFireTime 2 (k + 1) = timerFireTime 2 k + 2) ∧
    (∀ k : Nat, immediateUpdateTime < timerFireTime 2 k) := by
  refine ⟨rfl, by decide, ?_, fun k => ?_, fun k => ?_⟩
  · intro p hp
    simp only [onMountEvents, List.mem_cons, List.mem_singleton] at hp
    rcases hp with hp | hp
    · exact (MountEvent.setInterval.injEq p 2).mp (congrArg id hp)
    · exact absurd hp (by simp)
  · simp only [timerFireTime]
    omega
  · simp only [immediateUpdateTime, timerFireTime]
    omega

/-- Witness for C9: the one registered period is 2; firing times step by 2
and come after the immediate update. -/
theorem c9_witness :
    (2 : Nat) = 2 ∧ timerFireTime 2 1 = timerFireTime 2 0 + 2 ∧
    immediateUpdateTime < timerFireTime 2 0 :=
  ⟨c9_immediate_update_then_2s_cadence.2.2.1 2
     (show MountEvent.setInterval 2 ∈
        [MountEvent.setInterval 2, MountEvent.invokeUpdate] from
      List.mem_cons_self _ _),
   c9_immediate_update_then_2s_cadence.2.2.2.1 0,
   c9_immediate_update_then_2s_cadence.2.2.2.2 0⟩

end Monitor
